/-
Verification of the TFT data-extraction pipeline (`src/data/tft_data_scraper.py`)
against its natural-language specification.

The Python source is shallowly embedded: each relevant method becomes a Lean
function over explicit data; the HTTP environment becomes a deterministic
oracle (a function from attempt index / identifier to a scripted response);
Python exceptions become explicit outcome constructors; Python `dict.get`
with a default becomes `Option.getD`.
-/
import Mathlib

namespace TFT

/-! ## Rate-limit configuration and backoff (`RateLimitConfig`, `_exponential_backoff`)

`RateLimitConfig` mirrors the dataclass: max_retries = 5, base_delay = 1.0,
max_delay = 120.0.  Delays are modelled as rationals; the float arithmetic in
the source (`min(base * 2**n, max)`, `max(retry_after, …)`) is exact on the
values involved. -/

structure RateLimitConfig where
  max_retries : Nat := 5
  base_delay : ℚ := 1
  max_delay : ℚ := 120
deriving DecidableEq

def defaultConfig : RateLimitConfig := {}

/-- `RiotAPIClient._exponential_backoff`:
`delay = min(base_delay * (2 ** attempt), max_delay)`. -/
def exponential_backoff (cfg : RateLimitConfig) (attempt : Nat) : ℚ :=
  min (cfg.base_delay * 2 ^ attempt) cfg.max_delay

/-- The delay computed on an HTTP 429 inside `_make_request`:
`retry_after = int(response.headers.get('Retry-After', 1))`;
`delay = max(retry_after, self._exponential_backoff(attempt))`. -/
def retryDelay429 (cfg : RateLimitConfig) (attempt : Nat)
    (retryAfterHeader : Option Int) : ℚ :=
  let retry_after : Int := retryAfterHeader.getD 1
  max (retry_after : ℚ) (exponential_backoff cfg attempt)

/-! ## The request executor (`RiotAPIClient._make_request`)

The network is a deterministic script mapping the attempt index to the
response observed by `requests.get` on that attempt:
either an HTTP response (status code plus optional parsed Retry-After
header) or a transport-level exception (`requests.exceptions.RequestException`
raised by `requests.get` itself). -/

inductive Resp where
  /-- An HTTP response with its status code and parsed Retry-After header. -/
  | http (status : Nat) (retryAfter : Option Int)
  /-- `requests.get` raised a transport-level `RequestException`. -/
  | exc
deriving DecidableEq

/-- Outcome of one call to `_make_request`. -/
inductive ReqResult where
  /-- Returned `response.json()` of the given attempt (HTTP 200). -/
  | success (attempt : Nat)
  /-- The `for` loop ran out of attempts and the method returned `None`. -/
  | exhausted
  /-- An exception propagated out of the method on the given attempt. -/
  | raised (attempt : Nat)
deriving DecidableEq

/-- One pass of the retry loop of `_make_request`, from attempt index
`attempt` with `fuel` loop iterations remaining
(`fuel = cfg.max_retries - attempt` at every call from the top level).
Returns the outcome together with the number of HTTP requests issued
(calls to `requests.get`, attempted transports included).

Branches, following the source:
* status 200: return the payload;
* status 429: sleep `retryDelay429` and continue with the next attempt;
* any other status: log status / URL / truncated body; `raise_for_status()`
  raises `HTTPError` for 4xx/5xx, which is caught by the
  `except RequestException` handler: before the last attempt the loop sleeps
  and continues, on the last attempt the handler re-raises; for a non-error
  status (< 400) `raise_for_status()` is a no-op and the loop just advances;
* transport exception: same catch-and-retry handler. -/
def makeRequestFrom (cfg : RateLimitConfig) (script : Nat → Resp) :
    Nat → Nat → ReqResult × Nat
  | _, 0 => (.exhausted, 0)
  | attempt, fuel + 1 =>
    match script attempt with
    | .http status _ =>
      if status = 200 then (.success attempt, 1)
      else if status = 429 then
        let r := makeRequestFrom cfg script (attempt + 1) fuel
        (r.1, r.2 + 1)
      else if 400 ≤ status then
        if attempt < cfg.max_retries - 1 then
          let r := makeRequestFrom cfg script (attempt + 1) fuel
          (r.1, r.2 + 1)
        else (.raised attempt, 1)
      else
        let r := makeRequestFrom cfg script (attempt + 1) fuel
        (r.1, r.2 + 1)
    | .exc =>
      if attempt < cfg.max_retries - 1 then
        let r := makeRequestFrom cfg script (attempt + 1) fuel
        (r.1, r.2 + 1)
      else (.raised attempt, 1)

/-- `RiotAPIClient._make_request` run against a response script:
`for attempt in range(self.rate_limit_config.max_retries): …`. -/
def make_request (cfg : RateLimitConfig) (script : Nat → Resp) : ReqResult × Nat :=
  makeRequestFrom cfg script 0 cfg.max_retries

/-- A response is retryable when it is a 429 or a transport failure. -/
def retryable : Resp → Bool
  | .http s _ => s = 429
  | .exc => true

/-- A response with a fatal (non-200, non-429, error-class) HTTP status. -/
def fatalStatus : Resp → Bool
  | .http s _ => s ≠ 200 ∧ s ≠ 429 ∧ 400 ≤ s
  | .exc => false

/-- Any response other than an HTTP 200 (the loop does not return a payload
on it). -/
def failing : Resp → Bool
  | .http s _ => s ≠ 200
  | .exc => true

/-! ## Static data model (`CDragonClient`)

The CDragon document is modelled by the two top-level keys the client reads:
`setData` (the list of set candidates) and `items` (the root item list).
A JSON field read with `dict.get(key)` becomes an `Option`; a field read with
`dict.get(key, default)` becomes `Option.getD`. The `number` field of a set
candidate may be JSON-encoded as a number or a string, which the source
compares against both `target_set_number` and `str(target_set_number)`. -/

inductive NumStr where
  | num (n : Int)
  | str (s : String)
deriving DecidableEq

/-- An item value in an item list: either a bare identifier string or an
inlined item object (`isinstance(item, str)` vs `isinstance(item, dict)`). -/
structure ItemObj where
  id : Option Int
  apiName : Option String
  name : Option String
  desc : Option String
  from_ : Option (List String)
  composition : Option (List String)
deriving DecidableEq

inductive ItemVal where
  | strVal (s : String)
  | objVal (o : ItemObj)
deriving DecidableEq

structure ChampObj where
  characterName : Option String
  name : Option String
  cost : Option Int
  traits : Option (List String)
  stats : Option (List (String × ℚ))
deriving DecidableEq

structure TraitObj where
  name : Option String
  display_name : Option String
  effects : Option (List String)
deriving DecidableEq

/-- One entry of `setData`. -/
structure SetCandidate where
  number : Option NumStr
  mutator : Option String
  name : Option String
  champions : Option (List ChampObj)
  traits : Option (List TraitObj)
  items : Option (List ItemVal)
deriving DecidableEq

structure StaticData where
  setData : List SetCandidate
  items : List ItemVal
deriving DecidableEq

/-- Python exceptions raised by the client. -/
inductive PyErr where
  | valueError
deriving DecidableEq

/-- Warning-level log signals emitted by `find_current_set`. -/
inductive Warning where
  /-- "No set data found in CDragon response" -/
  | noSetData
  /-- "Could not find Set N. Using last set in array (may be incorrect)" -/
  | setFallback
  /-- "No exact base set found. Using first match." -/
  | ambiguousVariant
deriving DecidableEq

/-- `set_num == target_set_number or set_num == str(target_set_number)`. -/
def matchesTarget (n : Int) (c : SetCandidate) : Bool :=
  c.number = some (.num n) ∨ c.number = some (.str (toString n))

/-- `base_mutator = f"TFTSet{target_set_number}"`. -/
def baseMutator (n : Int) : String := "TFTSet" ++ toString n

/-- `set_info.get('mutator', '')`. -/
def mutatorOf (c : SetCandidate) : String := c.mutator.getD ""

/-- Core of `CDragonClient.find_current_set` (after the loaded-state guard):
returns the selected set (or `None`) together with the warning-level signals
emitted, in order. -/
def findCurrentSetCore (sets_data : List SetCandidate) (n : Int) :
    Option SetCandidate × List Warning :=
  if sets_data.isEmpty then (none, [.noSetData])
  else
    let matching := sets_data.filter (matchesTarget n)
    if matching.isEmpty then (sets_data.getLast?, [.setFallback])
    else if 1 < matching.length then
      match matching.find? (fun c => mutatorOf c == baseMutator n) with
      | some b => (some b, [])
      | none => (matching.head?, [.ambiguousVariant])
    else (matching.head?, [])

/-- `CDragonClient.find_current_set`, including the
`if not self.static_data: raise ValueError(…)` guard (the client state
`self.static_data` is the `Option StaticData` argument). -/
def find_current_set (static_data : Option StaticData) (n : Int) :
    Except PyErr (Option SetCandidate × List Warning) :=
  match static_data with
  | none => .error .valueError
  | some sd => .ok (findCurrentSetCore sd.setData n)

/-! ### Champion / trait extraction

The extracted maps are Python dicts keyed by lower-cased identifiers; they are
modelled as insertion-ordered association lists where assigning to an existing
key replaces its value in place (Python dict semantics). -/

/-- `d[k] = v` on an insertion-ordered dict. -/
def insertAssoc {α : Type} (d : List (String × α)) (k : String) (v : α) :
    List (String × α) :=
  match d with
  | [] => [(k, v)]
  | (k', v') :: rest =>
    if k' = k then (k, v) :: rest else (k', v') :: insertAssoc rest k v

/-- `d.get(k)` on an insertion-ordered dict. -/
def lookupAssoc {α : Type} (d : List (String × α)) (k : String) : Option α :=
  match d with
  | [] => none
  | (k', v') :: rest => if k' = k then some v' else lookupAssoc rest k

structure ChampRec where
  name : String
  cost : Int
  traits : List String
  stats : List (String × ℚ)
deriving DecidableEq

structure TraitRec where
  display_name : String
  effects : List String
deriving DecidableEq

/-- `CDragonClient.extract_champions`: guard, resolve the set, then key each
champion by `champion.get('characterName', '').lower()`, skipping empty ids. -/
def extract_champions (static_data : Option StaticData) (n : Int) :
    Except PyErr (List (String × ChampRec)) :=
  match static_data with
  | none => .error .valueError
  | some sd =>
    match (findCurrentSetCore sd.setData n).1 with
    | none => .ok []
    | some current_set =>
      .ok <| (current_set.champions.getD []).foldl
        (fun champs champion =>
          let char_id := (champion.characterName.getD "").toLower
          if char_id = "" then champs
          else insertAssoc champs char_id
            { name := champion.name.getD ""
              cost := champion.cost.getD 0
              traits := champion.traits.getD []
              stats := champion.stats.getD [] }) []

/-- `CDragonClient.extract_traits`: guard, resolve the set, then key each
trait by `trait.get('name', '').lower()`, skipping empty ids. -/
def extract_traits (static_data : Option StaticData) (n : Int) :
    Except PyErr (List (String × TraitRec)) :=
  match static_data with
  | none => .error .valueError
  | some sd =>
    match (findCurrentSetCore sd.setData n).1 with
    | none => .ok []
    | some current_set =>
      .ok <| (current_set.traits.getD []).foldl
        (fun traits trait =>
          let trait_id := (trait.name.getD "").toLower
          if trait_id = "" then traits
          else insertAssoc traits trait_id
            { display_name := trait.display_name.getD ""
              effects := trait.effects.getD [] }) []

/-! ### Item extraction -/

structure ItemRec where
  name : String
  description : String
  from_ : List String
deriving DecidableEq

/-- `str(obj.get('id', obj.get('apiName', '')))`: the key under which an item
object is indexed. -/
def itemKey (o : ItemObj) : String :=
  match o.id with
  | some i => toString i
  | none => o.apiName.getD ""

/-- The projected record stored for an item object:
`{'name': …, 'description': …, 'from': obj.get('from', obj.get('composition', []))}`. -/
def itemRecOf (o : ItemObj) : ItemRec :=
  { name := o.name.getD ""
    description := o.desc.getD ""
    from_ := o.from_.getD (o.composition.getD []) }

/-- The `for root_item in root_items_list` accumulation loop: for each dict
entry whose key is non-empty, `root_items[item_id] = root_item`. -/
def buildRootItemsAux : List ItemVal → List (String × ItemObj) → List (String × ItemObj)
  | [], root_items => root_items
  | .strVal _ :: rest, root_items => buildRootItemsAux rest root_items
  | .objVal o :: rest, root_items =>
    let item_id := itemKey o
    if item_id = "" then buildRootItemsAux rest root_items
    else buildRootItemsAux rest (insertAssoc root_items item_id o)

/-- Building `root_items` from the root item list (starting from `{}`). -/
def buildRootItems (root_items_list : List ItemVal) : List (String × ItemObj) :=
  buildRootItemsAux root_items_list []

/-- The `for item in items_data` processing loop of `extract_items`:
a bare string is resolved through `root_items` (dropped when unresolvable);
a dict is keyed by `itemKey` (dropped when the key is empty). -/
def processItems (root_items : List (String × ItemObj)) :
    List ItemVal → List (String × ItemRec) → List (String × ItemRec)
  | [], acc => acc
  | .strVal item_id :: rest, acc =>
    match lookupAssoc root_items item_id with
    | none => processItems root_items rest acc
    | some item_obj => processItems root_items rest (insertAssoc acc item_id (itemRecOf item_obj))
  | .objVal o :: rest, acc =>
    let item_id := itemKey o
    if item_id = "" then processItems root_items rest acc
    else processItems root_items rest (insertAssoc acc item_id (itemRecOf o))

/-- `CDragonClient.extract_items`: guard, build the root lookup, take the
set-scoped item list (falling back to the root list when it is empty), and
process it. -/
def extract_items (static_data : Option StaticData) (n : Int) :
    Except PyErr (List (String × ItemRec)) :=
  match static_data with
  | none => .error .valueError
  | some sd =>
    let root_items := buildRootItems sd.items
    let items_data :=
      match (findCurrentSetCore sd.setData n).1 with
      | some current_set => current_set.items.getD []
      | none => []
    let items_data := if items_data.isEmpty then sd.items else items_data
    .ok (processItems root_items items_data [])

/-! ## Pipeline orchestrator (`TFTDataPipeline.extract_match_data`)

The Riot API environment is a deterministic oracle: each endpoint wrapper
either returns a value or raises (`Fetch.exc`, an exception propagating out of
`_make_request`).  A `None`/falsy entry field is modelled as `Option.none`
(the source tests these with Python truthiness). Match payloads are abstracted
to opaque strings: the orchestrator only stores and counts them. -/

inductive Fetch (α : Type) where
  | ok (a : α)
  | exc
deriving DecidableEq

structure LeagueEntry where
  puuid : Option String
  summonerId : Option String
deriving DecidableEq

structure Summoner where
  puuid : Option String
deriving DecidableEq

structure RiotEnv where
  /-- `get_summoner_by_id`: returns `_make_request(url)` (may be `None`, may raise). -/
  getSummoner : String → Fetch (Option Summoner)
  /-- `get_match_ids_by_puuid`: `_make_request` result with falsy mapped to `[]`
  inside the wrapper (may raise). -/
  getMatchIds : String → Fetch (List String)
  /-- `get_match_details`: returns `_make_request(url)` (may be `None`, may raise). -/
  getMatchDetails : String → Fetch (Option String)

structure PipState where
  /-- `processed_match_ids` (insertion order kept for concreteness). -/
  processed : List String
  /-- `all_matches`. -/
  collected : List String
  /-- Every match id for which `get_match_details` was invoked, in call order. -/
  fetchLog : List String
deriving DecidableEq

/-- Outcome of the orchestrator: either the loop completed (and
`extract_match_data` returns `st.collected`), or an uncaught exception
aborted it in the given internal state. -/
inductive RunOutcome where
  | completed (st : PipState)
  | aborted (st : PipState)
deriving DecidableEq

def RunOutcome.state : RunOutcome → PipState
  | .completed st => st
  | .aborted st => st

def RunOutcome.isCompleted : RunOutcome → Bool
  | .completed _ => true
  | .aborted _ => false

/-- The per-player match loop (`for match_id in match_ids: …`): skip ids in
`processed_match_ids`; otherwise call `get_match_details` — which is *not*
wrapped in try/except, so a raise aborts — and on a truthy result append the
match and mark the id processed. -/
def fetchMatches (env : RiotEnv) (st : PipState) : List String → RunOutcome
  | [] => .completed st
  | match_id :: rest =>
    if match_id ∈ st.processed then fetchMatches env st rest
    else
      match env.getMatchDetails match_id with
      | .exc => .aborted { st with fetchLog := st.fetchLog ++ [match_id] }
      | .ok none => fetchMatches env { st with fetchLog := st.fetchLog ++ [match_id] } rest
      | .ok (some d) =>
        fetchMatches env
          { processed := st.processed ++ [match_id]
            collected := st.collected ++ [d]
            fetchLog := st.fetchLog ++ [match_id] } rest

/-- Player-reference resolution: prefer `entry.get('puuid')`; otherwise fall
back to the legacy `summonerId` lookup, whose exceptions are caught
(`except Exception: …`) leaving the puuid unresolved. -/
def resolvePuuid (env : RiotEnv) (e : LeagueEntry) : Option String :=
  match e.puuid with
  | some p => some p
  | none =>
    match e.summonerId with
    | none => none
    | some summoner_id =>
      match env.getSummoner summoner_id with
      | .exc => none
      | .ok none => none
      | .ok (some s) => s.puuid

/-- The per-entry loop of `extract_match_data`: skip entries without a
resolvable puuid; catch exceptions of `get_match_ids_by_puuid` and skip the
player; then run the match loop, propagating an abort. -/
def processPlayers (env : RiotEnv) (st : PipState) : List LeagueEntry → RunOutcome
  | [] => .completed st
  | e :: rest =>
    match resolvePuuid env e with
    | none => processPlayers env st rest
    | some puuid =>
      match env.getMatchIds puuid with
      | .exc => processPlayers env st rest
      | .ok match_ids =>
        match fetchMatches env st match_ids with
        | .aborted st' => .aborted st'
        | .completed st' => processPlayers env st' rest

/-- `TFTDataPipeline.extract_match_data`: empty league short-circuits to `[]`,
otherwise the first `num_players` entries are processed from empty state. -/
def extract_match_data (env : RiotEnv) (challenger_entries : List LeagueEntry)
    (num_players : Nat) : RunOutcome :=
  if challenger_entries.isEmpty then .completed ⟨[], [], []⟩
  else processPlayers env ⟨[], [], []⟩ (challenger_entries.take num_players)

/-! ## Dataset builder (`TFTDataPipeline.build_training_dataframe`)

A match payload is modelled by the fields the builder reads; the
`json.dumps` serialization of nested collections is kept as the projected
Lean lists (the encoding is injective and irrelevant to the claims). -/

structure TraitEntry where
  name : Option String
  tier_current : Option Int
  num_units : Option Int
deriving DecidableEq

structure UnitEntry where
  character_id : Option String
  tier : Option Int
  itemNames : Option (List String)
deriving DecidableEq

structure CompanionObj where
  content_ID : Option String
deriving DecidableEq

structure ParticipantObj where
  placement : Option Int
  level : Option Int
  last_round : Option Int
  gold_left : Option Int
  total_damage_to_players : Option Int
  augments : Option (List String)
  traits : Option (List TraitEntry)
  units : Option (List UnitEntry)
  companion : Option CompanionObj
deriving DecidableEq

structure MatchMetadata where
  match_id : Option String
deriving DecidableEq

structure MatchInfo where
  game_version : Option String
  tft_set_number : Option Int
  participants : Option (List ParticipantObj)
deriving DecidableEq

structure MatchRecord where
  metadata : Option MatchMetadata
  info : Option MatchInfo
deriving DecidableEq

structure TraitRow where
  name : String
  tier_current : Int
  num_units : Int
deriving DecidableEq

structure UnitRow where
  character_id : String
  tier : Int
  items : List String
deriving DecidableEq

structure TrainingRow where
  match_id : String
  game_version : String
  tft_set : Int
  placement : Int
  level : Int
  last_round : Int
  gold_left : Int
  total_damage_to_players : Int
  augments : List String
  traits : List TraitRow
  units : List UnitRow
  companion : String
deriving DecidableEq

/-- `match.get('info', {})`. -/
def infoOf (m : MatchRecord) : MatchInfo := m.info.getD ⟨none, none, none⟩

/-- `info.get('participants', [])`. -/
def participantsOf (m : MatchRecord) : List ParticipantObj :=
  (infoOf m).participants.getD []

/-- `match.get('metadata', {}).get('match_id', '')`. -/
def matchIdOf (m : MatchRecord) : String :=
  (m.metadata.getD ⟨none⟩).match_id.getD ""

/-- The `row = {…}` dictionary built for one participant of one match. -/
def buildRow (m : MatchRecord) (p : ParticipantObj) : TrainingRow :=
  let info := infoOf m
  { match_id := matchIdOf m
    game_version := info.game_version.getD ""
    tft_set := info.tft_set_number.getD 0
    placement := p.placement.getD 0
    level := p.level.getD 0
    last_round := p.last_round.getD 0
    gold_left := p.gold_left.getD 0
    total_damage_to_players := p.total_damage_to_players.getD 0
    augments := p.augments.getD []
    traits := ((p.traits.getD []).filter (fun t => 0 < t.tier_current.getD 0)).map
      (fun t => ⟨t.name.getD "", t.tier_current.getD 0, t.num_units.getD 0⟩)
    units := (p.units.getD []).map
      (fun u => ⟨u.character_id.getD "", u.tier.getD 0, u.itemNames.getD []⟩)
    companion := (p.companion.getD ⟨none⟩).content_ID.getD "" }

/-- The nested row-building loops of `build_training_dataframe`. -/
def buildRows : List MatchRecord → List TrainingRow
  | [] => []
  | m :: rest => (participantsOf m).map (buildRow m) ++ buildRows rest

/-- `TFTDataPipeline.build_training_dataframe` (rows of the resulting frame;
an empty match collection short-circuits to an empty frame). -/
def build_training_dataframe (match_data : List MatchRecord) : List TrainingRow :=
  if match_data.isEmpty then [] else buildRows match_data

/-! ## Claims -/

/-- Claim C10: calling `find_current_set`, `extract_champions`,
`extract_traits` or `extract_items` before `fetch_static_data` has populated
the static data raises a `ValueError`; none of them returns a result from the
unloaded state. -/
theorem c10_unloaded_state_raises (n : Int) :
    find_current_set none n = .error .valueError ∧
    extract_champions none n = .error .valueError ∧
    extract_traits none n = .error .valueError ∧
    extract_items none n = .error .valueError :=
  ⟨rfl, rfl, rfl, rfl⟩

/-- Claim C3: the computed exponential backoff delay is monotone in the
attempt count, never exceeds the configured `max_delay`, and on a 429 a
server-provided retry hint at least as large as the computed delay is used
as the sleep time. -/
theorem c3_backoff_monotone_capped_hint (cfg : RateLimitConfig) (m n k : Nat)
    (hint : Int) (hb : 0 ≤ cfg.base_delay) (hmn : m ≤ n)
    (hhint : exponential_backoff cfg k ≤ (hint : ℚ)) :
    exponential_backoff cfg m ≤ exponential_backoff cfg n ∧
    exponential_backoff cfg k ≤ cfg.max_delay ∧
    retryDelay429 cfg k (some hint) = (hint : ℚ) := by
  refine ⟨?_, min_le_right _ _, ?_⟩
  · unfold exponential_backoff
    have h2 : (2 : ℚ) ^ m ≤ 2 ^ n := by
      exact pow_le_pow_right₀ (by norm_num) hmn
    exact min_le_min (mul_le_mul_of_nonneg_left h2 hb) le_rfl
  · unfold retryDelay429
    simpa using max_eq_left hhint

/-- Witness for C3 at the default configuration, attempts 1 ≤ 3, attempt 2
with server hint 200. -/
theorem c3_backoff_monotone_capped_hint_witness :
    exponential_backoff defaultConfig 1 ≤ exponential_backoff defaultConfig 3 ∧
    exponential_backoff defaultConfig 2 ≤ defaultConfig.max_delay ∧
    retryDelay429 defaultConfig 2 (some 200) = ((200 : Int) : ℚ) :=
  c3_backoff_monotone_capped_hint defaultConfig 1 3 2 200
    (by norm_num [defaultConfig]) (by norm_num)
    (by norm_num [exponential_backoff, defaultConfig])

/-- Claim C5: for a non-empty candidate list in which no candidate's set
number equals the target (numerically or as a string), the resolver returns
the last candidate in source order with exactly one fallback warning, and
this path is not a hard failure (the call returns `ok`). -/
theorem c5_no_match_falls_back_to_last (sets : List SetCandidate)
    (itemsRoot : List ItemVal) (n : Int) (hne : sets ≠ [])
    (hnomatch : ∀ c ∈ sets, matchesTarget n c = false) :
    find_current_set (some ⟨sets, itemsRoot⟩) n =
      .ok (sets.getLast?, [.setFallback]) ∧
    ∃ c, sets.getLast? = some c := by
  have hfilter : sets.filter (matchesTarget n) = [] := by
    simp only [List.filter_eq_nil_iff]
    intro c hc
    simp [hnomatch c hc]
  constructor
  · simp [find_current_set, findCurrentSetCore, hne, hfilter]
  · obtain ⟨c, hc⟩ := List.exists_mem_of_ne_nil sets hne
    exact ⟨sets.getLast hne, List.getLast?_eq_getLast sets hne⟩

/-- Helper: on a script that fails on every attempt still to come, the retry
loop consumes every remaining iteration (issuing one request each) and the
final outcome is decided by the last attempt's response: a transport failure
or an error-class status propagates, anything else falls out of the loop as
the exhausted `None`. -/
theorem makeRequestFrom_failing (cfg : RateLimitConfig) (script : Nat → Resp) :
    ∀ fuel attempt, attempt + fuel = cfg.max_retries →
    (∀ i, attempt ≤ i → i < cfg.max_retries → failing (script i) = true) →
    1 ≤ fuel →
    makeRequestFrom cfg script attempt fuel =
      ((match script (cfg.max_retries - 1) with
        | .exc => .raised (cfg.max_retries - 1)
        | .http s _ =>
          if s ≠ 429 ∧ 400 ≤ s then .raised (cfg.max_retries - 1)
          else .exhausted), fuel) := by
  intro fuel
  induction fuel with
  | zero => intro attempt _ _ h1; omega
  | succ f ih =>
    intro attempt hsum hfail _
    have hfa : failing (script attempt) = true := hfail attempt le_rfl (by omega)
    match f, ih with
    | 0, _ =>
      have ha : cfg.max_retries - 1 = attempt := by omega
      have hlast : ¬ attempt < attempt := Nat.lt_irrefl attempt
      cases hs : script attempt with
      | exc =>
        rw [makeRequestFrom.eq_2, hs, ha, hs]
        simp [hlast]
      | http s h =>
        rw [hs] at hfa
        have hs200 : ¬ s = 200 := by simpa [failing] using hfa
        rw [makeRequestFrom.eq_2, hs, ha, hs]
        by_cases h429 : s = 429
        · subst h429
          simp [makeRequestFrom]
        · by_cases h400 : 400 ≤ s
          · simp [hs200, h429, h400, hlast]
          · simp [makeRequestFrom, hs200, h429, h400]
    | f' + 1, ih =>
      have hlt : attempt < cfg.max_retries - 1 := by omega
      have ihr := ih (attempt + 1) (by omega)
        (fun i hi1 hi2 => hfail i (by omega) hi2) (by omega)
      cases hs : script attempt with
      | exc =>
        rw [makeRequestFrom.eq_2, hs]
        simp only [if_pos hlt, ihr]
      | http s h =>
        rw [hs] at hfa
        have hs200 : ¬ s = 200 := by simpa [failing] using hfa
        rw [makeRequestFrom.eq_2, hs]
        by_cases h429 : s = 429
        · subst h429
          simp [ihr]
        · by_cases h400 : 400 ≤ s
          · simp [hs200, h429, h400, hlt, ihr]
          · simp [hs200, h429, h400, ihr]

/-- Counterexample to C1 as stated: the first response is a 403 (neither 200
nor 429), yet the executor does not fail immediately — it issues a second
request, which succeeds.  (The `HTTPError` raised by `raise_for_status()` is
caught by the `except RequestException` handler, which retries.) -/
theorem c1_counterexample :
    (fun i => if i = 0 then Resp.http 403 none else Resp.http 200 none) 0 =
      Resp.http 403 none ∧
    make_request defaultConfig
      (fun i => if i = 0 then Resp.http 403 none else Resp.http 200 none) =
      (.success 1, 2) ∧
    ((ReqResult.success 1, 2) ≠ ((ReqResult.raised 0 : ReqResult), 1)) :=
  ⟨rfl, rfl, by decide⟩

/-- Claim C1 (amended): on a non-200/non-429 response the executor logs
diagnostic context and `raise_for_status()` raises, but the error is caught
by the generic retry handler: on every attempt before the last the request is
retried with backoff, and only on the final attempt does the error propagate.
In particular, under persistently fatal statuses all `max_retries` requests
are issued and the failure surfaces on the last attempt. -/
theorem c1_amended_fatal_status_retried (cfg : RateLimitConfig)
    (script : Nat → Resp) (h1 : 1 ≤ cfg.max_retries)
    (h2 : ∀ i, i < cfg.max_retries → fatalStatus (script i) = true) :
    make_request cfg script = (.raised (cfg.max_retries - 1), cfg.max_retries) := by
  have hfail : ∀ i, 0 ≤ i → i < cfg.max_retries → failing (script i) = true := by
    intro i _ hi
    have hf := h2 i hi
    cases hs : script i with
    | exc => rw [hs] at hf; simp [fatalStatus] at hf
    | http s h =>
      rw [hs] at hf
      simp only [fatalStatus, decide_eq_true_eq] at hf
      simp only [failing, decide_eq_true_eq]
      exact hf.1
  have hrun : make_request cfg script =
      ((match script (cfg.max_retries - 1) with
        | .exc => .raised (cfg.max_retries - 1)
        | .http s _ =>
          if s ≠ 429 ∧ 400 ≤ s then ReqResult.raised (cfg.max_retries - 1)
          else .exhausted), cfg.max_retries) :=
    makeRequestFrom_failing cfg script cfg.max_retries 0 (by omega) hfail h1
  rw [hrun]
  have hlast := h2 (cfg.max_retries - 1) (by omega)
  cases hs : script (cfg.max_retries - 1) with
  | exc => rfl
  | http s h =>
    rw [hs] at hlast
    simp only [fatalStatus, decide_eq_true_eq] at hlast
    simp [hlast.2.1, hlast.2.2]

/-- Witness for the amended C1: five consecutive 403 responses at the default
configuration ⇒ five requests issued, error propagated on attempt 4. -/
theorem c1_amended_fatal_status_retried_witness :
    make_request defaultConfig (fun _ => Resp.http 403 none) = (.raised 4, 5) :=
  c1_amended_fatal_status_retried defaultConfig (fun _ => Resp.http 403 none)
    (by decide) (fun i _ => rfl)

/-- Counterexample to C2 as stated: five consecutive transport failures are
retryable failures, and the final outcome is the re-raised transport
exception, not the exhausted `None` outcome. -/
theorem c2_counterexample :
    retryable Resp.exc = true ∧
    make_request defaultConfig (fun _ => Resp.exc) = (.raised 4, 5) ∧
    (ReqResult.raised 4 ≠ .exhausted) :=
  ⟨rfl, rfl, by decide⟩

/-- Claim C2 (amended): after `max_retries` consecutive retryable failures
(HTTP 429 or transport failure) the client fails — never with a success — and
issues exactly `max_retries` HTTP requests, no more; the failure is the
exhausted `None` outcome when the final attempt was a 429, and the re-raised
exception when the final attempt was a transport failure. -/
theorem c2_amended_exhaustion (cfg : RateLimitConfig) (script : Nat → Resp)
    (h1 : 1 ≤ cfg.max_retries)
    (h2 : ∀ i, i < cfg.max_retries → retryable (script i) = true) :
    (make_request cfg script).2 = cfg.max_retries ∧
    (∀ a, (make_request cfg script).1 ≠ .success a) ∧
    (make_request cfg script).1 =
      (match script (cfg.max_retries - 1) with
       | .exc => .raised (cfg.max_retries - 1)
       | .http _ _ => .exhausted) := by
  have hfail : ∀ i, 0 ≤ i → i < cfg.max_retries → failing (script i) = true := by
    intro i _ hi
    have hr := h2 i hi
    cases hs : script i with
    | exc => simp [failing]
    | http s h =>
      rw [hs] at hr
      simp only [retryable, decide_eq_true_eq] at hr
      simp [failing, hr]
  have hrun : make_request cfg script =
      ((match script (cfg.max_retries - 1) with
        | .exc => .raised (cfg.max_retries - 1)
        | .http s _ =>
          if s ≠ 429 ∧ 400 ≤ s then ReqResult.raised (cfg.max_retries - 1)
          else .exhausted), cfg.max_retries) :=
    makeRequestFrom_failing cfg script cfg.max_retries 0 (by omega) hfail h1
  have hlast := h2 (cfg.max_retries - 1) (by omega)
  refine ⟨by rw [hrun], ?_, ?_⟩
  · intro a
    rw [hrun]
    cases hs : script (cfg.max_retries - 1) with
    | exc => simp
    | http s h => simp only; split <;> simp
  · rw [hrun]
    cases hs : script (cfg.max_retries - 1) with
    | exc => simp
    | http s h =>
      rw [hs] at hlast
      simp only [retryable, decide_eq_true_eq] at hlast
      simp [hlast]

/-- Witness for the amended C2: five consecutive 429 responses at the default
configuration ⇒ five requests, no success, outcome exhausted (`None`). -/
theorem c2_amended_exhaustion_witness :
    (make_request defaultConfig (fun _ => Resp.http 429 none)).2 = 5 ∧
    (∀ a, (make_request defaultConfig (fun _ => Resp.http 429 none)).1 ≠ .success a) ∧
    (make_request defaultConfig (fun _ => Resp.http 429 none)).1 = .exhausted := by
  have h := c2_amended_exhaustion defaultConfig (fun _ => Resp.http 429 none)
    (by decide) (fun i _ => rfl)
  exact ⟨h.1, h.2.1, h.2.2⟩

/-- Claim C4: when multiple candidates share the target set number, the
resolver returns the unique candidate carrying the canonical base mutator tag
for set N (rendered `TFTSet{N}` in the source) with no warning, regardless of
its position in the array; when no matching candidate carries the canonical
tag, it returns the first matching candidate in source order and emits the
ambiguous-variant warning. -/
theorem c4_variant_disambiguation (sets : List SetCandidate)
    (itemsRoot : List ItemVal) (n : Int)
    (hmulti : 1 < (sets.filter (matchesTarget n)).length) :
    (∀ c, c ∈ sets → matchesTarget n c = true → mutatorOf c = baseMutator n →
      (∀ c', c' ∈ sets → matchesTarget n c' = true →
        mutatorOf c' = baseMutator n → c' = c) →
      find_current_set (some ⟨sets, itemsRoot⟩) n = .ok (some c, [])) ∧
    ((∀ c' ∈ sets, matchesTarget n c' = true → mutatorOf c' ≠ baseMutator n) →
      find_current_set (some ⟨sets, itemsRoot⟩) n =
        .ok ((sets.filter (matchesTarget n)).head?, [.ambiguousVariant])) := by
  have hne : sets.isEmpty = false := by
    cases sets with
    | nil => simp at hmulti
    | cons a l => rfl
  have hmne : (sets.filter (matchesTarget n)).isEmpty = false := by
    cases hm : sets.filter (matchesTarget n) with
    | nil => rw [hm] at hmulti; simp at hmulti
    | cons a l => rfl
  constructor
  · intro c hc hmatch hmut huniq
    have hfind : (sets.filter (matchesTarget n)).find?
        (fun x => mutatorOf x == baseMutator n) = some c := by
      have hcm : c ∈ sets.filter (matchesTarget n) := List.mem_filter.2 ⟨hc, hmatch⟩
      have hsome : ((sets.filter (matchesTarget n)).find?
          (fun x => mutatorOf x == baseMutator n)).isSome := by
        rw [List.find?_isSome]
        exact ⟨c, hcm, by simp [hmut]⟩
      obtain ⟨x, hx⟩ := Option.isSome_iff_exists.1 hsome
      have hpx := List.find?_some hx
      have hxm := List.mem_of_find?_eq_some hx
      have hxs := List.mem_filter.1 hxm
      have hxc : x = c :=
        huniq x hxs.1 hxs.2 (by simpa using hpx)
      rw [hx, hxc]
    simp [find_current_set, findCurrentSetCore, hne, hmne, hmulti, hfind]
  · intro hnone
    have hfind : (sets.filter (matchesTarget n)).find?
        (fun x => mutatorOf x == baseMutator n) = none := by
      rw [List.find?_eq_none]
      intro x hx
      have hxs := List.mem_filter.1 hx
      simpa using hnone x hxs.1 hxs.2
    simp [find_current_set, findCurrentSetCore, hne, hmne, hmulti, hfind]

/-- Witness for C4: two candidates of set 16 — a suffixed event variant
listed first, the canonical `TFTSet16` candidate second — resolve to the
canonical candidate. -/
theorem c4_variant_disambiguation_witness :
    find_current_set
      (some ⟨[⟨some (.num 16), some "TFTSet16_Event", some "Event", none, none, none⟩,
              ⟨some (.num 16), some "TFTSet16", some "Base", none, none, none⟩], []⟩) 16 =
      .ok (some ⟨some (.num 16), some "TFTSet16", some "Base", none, none, none⟩, []) :=
  (c4_variant_disambiguation
      [⟨some (.num 16), some "TFTSet16_Event", some "Event", none, none, none⟩,
       ⟨some (.num 16), some "TFTSet16", some "Base", none, none, none⟩] [] 16
      (by decide)).1
    ⟨some (.num 16), some "TFTSet16", some "Base", none, none, none⟩
    (by decide) (by decide) (by decide) (by decide)

/-- Witness for C5: a two-candidate catalog with numbers 14 and "15" and
target 16. -/
theorem c5_no_match_falls_back_to_last_witness :
    find_current_set
      (some ⟨[⟨some (.num 14), some "TFTSet14", some "A", none, none, none⟩,
              ⟨some (.str "15"), some "TFTSet15", some "B", none, none, none⟩], []⟩) 16 =
      .ok (some ⟨some (.str "15"), some "TFTSet15", some "B", none, none, none⟩,
           [.setFallback]) ∧
    ∃ c, [⟨some (.num 14), some "TFTSet14", some "A", none, none, none⟩,
          (⟨some (.str "15"), some "TFTSet15", some "B", none, none, none⟩ : SetCandidate)].getLast? = some c := by
  have h := c5_no_match_falls_back_to_last
    [⟨some (.num 14), some "TFTSet14", some "A", none, none, none⟩,
     ⟨some (.str "15"), some "TFTSet15", some "B", none, none, none⟩] [] 16
    (by decide) (by decide)
  exact h

theorem build_eq_buildRows (l : List MatchRecord) :
    build_training_dataframe l = buildRows l := by
  cases l <;> rfl

theorem buildRows_length :
    ∀ l : List MatchRecord,
      (buildRows l).length = (l.map (fun m => (participantsOf m).length)).sum
  | [] => rfl
  | m :: rest => by simp [buildRows, buildRows_length rest]

theorem mem_buildRows_of (m : MatchRecord) (p : ParticipantObj)
    (hp : p ∈ participantsOf m) :
    ∀ l : List MatchRecord, m ∈ l → buildRow m p ∈ buildRows l := by
  intro l
  induction l with
  | nil => intro hm; cases hm
  | cons a rest ih =>
    intro hm
    simp only [buildRows, List.mem_append]
    rcases List.mem_cons.1 hm with h | h
    · subst h
      exact Or.inl (List.mem_map_of_mem _ hp)
    · exact Or.inr (ih h)

theorem mem_buildRows (r : TrainingRow) :
    ∀ l : List MatchRecord, r ∈ buildRows l →
      ∃ m, m ∈ l ∧ ∃ p, p ∈ participantsOf m ∧ r = buildRow m p := by
  intro l
  induction l with
  | nil => intro hr; simp [buildRows] at hr
  | cons a rest ih =>
    intro hr
    simp only [buildRows, List.mem_append] at hr
    rcases hr with hr | hr
    · obtain ⟨p, hp, he⟩ := List.mem_map.1 hr
      exact ⟨a, List.mem_cons_self a rest, p, hp, he.symm⟩
    · obtain ⟨m, hm, p, hp, he⟩ := ih hr
      exact ⟨m, List.mem_cons_of_mem a hm, p, hp, he⟩

/-- Claim C8: the dataset builder emits exactly one row per participant per
match — the row count is the sum of participant counts over the supplied
matches, every participant's row is present, and every row comes from one
participant of one supplied match with the match-level fields (match id,
game version, set number) copied onto it. -/
theorem c8_one_row_per_participant (match_data : List MatchRecord) :
    (build_training_dataframe match_data).length =
      (match_data.map (fun m => (participantsOf m).length)).sum ∧
    (∀ m, m ∈ match_data → ∀ p, p ∈ participantsOf m →
      buildRow m p ∈ build_training_dataframe match_data) ∧
    (∀ r, r ∈ build_training_dataframe match_data →
      ∃ m, m ∈ match_data ∧ ∃ p, p ∈ participantsOf m ∧ r = buildRow m p ∧
        r.match_id = matchIdOf m ∧
        r.game_version = (infoOf m).game_version.getD "" ∧
        r.tft_set = (infoOf m).tft_set_number.getD 0) := by
  rw [build_eq_buildRows]
  refine ⟨buildRows_length match_data, ?_, ?_⟩
  · intro m hm p hp
    exact mem_buildRows_of m p hp match_data hm
  · intro r hr
    obtain ⟨m, hm, p, hp, he⟩ := mem_buildRows r match_data hr
    subst he
    exact ⟨m, hm, p, hp, rfl, rfl, rfl, rfl⟩

theorem lookupAssoc_insertAssoc {α : Type} (d : List (String × α)) (k k' : String)
    (v : α) :
    lookupAssoc (insertAssoc d k v) k' = if k = k' then some v else lookupAssoc d k' := by
  induction d with
  | nil => simp [insertAssoc, lookupAssoc]
  | cons a rest ih =>
    obtain ⟨ka, va⟩ := a
    by_cases hka : ka = k
    · subst hka
      simp only [insertAssoc, if_pos rfl]
      by_cases hk' : ka = k'
      · simp [lookupAssoc, hk']
      · simp [lookupAssoc, hk']
    · simp only [insertAssoc, if_neg hka]
      by_cases hk' : ka = k'
      · subst hk'
        have : ¬ k = ka := fun h => hka h.symm
        simp [lookupAssoc, this]
      · simp [lookupAssoc, hk', ih]

/-- Every binding of the root item dictionary maps a non-empty key to an
object whose own key equals it. -/
theorem buildRootItemsAux_key :
    ∀ (l : List ItemVal) (acc : List (String × ItemObj)),
      (∀ k o, lookupAssoc acc k = some o → itemKey o = k ∧ k ≠ "") →
      ∀ k o, lookupAssoc (buildRootItemsAux l acc) k = some o →
        itemKey o = k ∧ k ≠ ""
  | [], acc, hacc => hacc
  | .strVal s :: rest, acc, hacc => by
    simp only [buildRootItemsAux]
    exact buildRootItemsAux_key rest acc hacc
  | .objVal o :: rest, acc, hacc => by
    simp only [buildRootItemsAux]
    by_cases hid : itemKey o = ""
    · simp only [if_pos hid]
      exact buildRootItemsAux_key rest acc hacc
    · simp only [if_neg hid]
      refine buildRootItemsAux_key rest _ ?_
      intro k ob hk
      rw [lookupAssoc_insertAssoc] at hk
      by_cases hkk : itemKey o = k
      · rw [if_pos hkk] at hk
        cases hk
        exact ⟨hkk, fun h => hid (hkk.trans h)⟩
      · rw [if_neg hkk] at hk
        exact hacc k ob hk

theorem buildRootItems_key (roots : List ItemVal) (k : String) (o : ItemObj)
    (h : lookupAssoc (buildRootItems roots) k = some o) :
    itemKey o = k ∧ k ≠ "" :=
  buildRootItemsAux_key roots []
    (fun _ _ hk => by simp [lookupAssoc] at hk) k o h

/-- Processing a list of bare identifier strings that all resolve equals
processing the corresponding inlined objects. -/
theorem processItems_roundtrip (rootd : List (String × ItemObj))
    (hroot : ∀ k o, lookupAssoc rootd k = some o → itemKey o = k ∧ k ≠ "") :
    ∀ (l : List (String × ItemObj)) (acc : List (String × ItemRec)),
      (∀ pr ∈ l, lookupAssoc rootd pr.1 = some pr.2) →
      processItems rootd (l.map (fun pr => ItemVal.strVal pr.1)) acc =
        processItems rootd (l.map (fun pr => ItemVal.objVal pr.2)) acc
  | [], acc, _ => rfl
  | (k, o) :: rest, acc, hres => by
    have hk : lookupAssoc rootd k = some o := hres (k, o) (List.mem_cons_self _ _)
    obtain ⟨hkey, hne⟩ := hroot k o hk
    simp only [List.map_cons, processItems, hk, hkey, if_neg hne]
    exact processItems_roundtrip rootd hroot rest _
      (fun pr hpr => hres pr (List.mem_cons_of_mem _ hpr))

/-- Claim C9: item extraction produces the same item records whether the
set-scoped item list contains bare identifier strings (all resolvable against
the root catalog) or the fully inlined item objects for those same items. -/
theorem c9_item_resolution_roundtrip (roots : List ItemVal)
    (l : List (String × ItemObj)) (n : Int) (mu nm : Option String)
    (hres : ∀ pr ∈ l, lookupAssoc (buildRootItems roots) pr.1 = some pr.2) :
    extract_items (some ⟨[⟨some (.num n), mu, nm, none, none,
        some (l.map (fun pr => ItemVal.strVal pr.1))⟩], roots⟩) n =
    extract_items (some ⟨[⟨some (.num n), mu, nm, none, none,
        some (l.map (fun pr => ItemVal.objVal pr.2))⟩], roots⟩) n := by
  have hmatch : matchesTarget n
      (⟨some (.num n), mu, nm, none, none,
        some (l.map (fun pr => ItemVal.strVal pr.1))⟩ : SetCandidate) = true := by
    simp [matchesTarget]
  have hmatch' : matchesTarget n
      (⟨some (.num n), mu, nm, none, none,
        some (l.map (fun pr => ItemVal.objVal pr.2))⟩ : SetCandidate) = true := by
    simp [matchesTarget]
  simp only [extract_items, findCurrentSetCore, List.isEmpty_cons,
    List.filter_cons, hmatch, hmatch', List.filter_nil]
  cases l with
  | nil => rfl
  | cons pr rest =>
    simp only [List.map_cons, List.isEmpty_cons, Bool.false_eq_true,
      if_false, List.length_cons]
    exact congrArg Except.ok
      (processItems_roundtrip (buildRootItems roots) (buildRootItems_key roots)
        (pr :: rest) [] hres)

/-- Witness for C9: one root item with numeric id 11; resolving the bare
string "11" yields the same extraction as inlining the object. -/
theorem c9_item_resolution_roundtrip_witness :
    extract_items (some ⟨[⟨some (.num 16), some "TFTSet16", some "S", none, none,
        some [ItemVal.strVal "11"]⟩],
      [ItemVal.objVal ⟨some 11, some "BFSword", some "B.F. Sword", some "atk", none, none⟩]⟩) 16 =
    extract_items (some ⟨[⟨some (.num 16), some "TFTSet16", some "S", none, none,
        some [ItemVal.objVal ⟨some 11, some "BFSword", some "B.F. Sword", some "atk", none, none⟩]⟩],
      [ItemVal.objVal ⟨some 11, some "BFSword", some "B.F. Sword", some "atk", none, none⟩]⟩) 16 := by
  have h := c9_item_resolution_roundtrip
    [ItemVal.objVal ⟨some 11, some "BFSword", some "B.F. Sword", some "atk", none, none⟩]
    [("11", ⟨some 11, some "BFSword", some "B.F. Sword", some "atk", none, none⟩)]
    16 (some "TFTSet16") (some "S")
    (by intro pr hpr; simp at hpr; subst hpr; rfl)
  exact h

theorem fetchMatches_count_inv (env : RiotEnv) (m d : String)
    (henv : env.getMatchDetails m = .ok (some d)) :
    ∀ (l : List String) (st : PipState),
      st.fetchLog.count m = (if m ∈ st.processed then 1 else 0) →
      (fetchMatches env st l).state.fetchLog.count m =
        (if m ∈ (fetchMatches env st l).state.processed then 1 else 0)
  | [], _, h => h
  | mid :: rest, st, h => by
    by_cases hmem : mid ∈ st.processed
    · simp only [fetchMatches, if_pos hmem]
      exact fetchMatches_count_inv env m d henv rest st h
    · cases hd : env.getMatchDetails mid with
      | exc =>
        have hne : m ≠ mid := fun he => by
          rw [← he, henv] at hd
          cases hd
        simp only [fetchMatches, if_neg hmem, hd, RunOutcome.state]
        simpa [List.count_append, hne] using h
      | ok od =>
        cases od with
        | none =>
          have hne : m ≠ mid := fun he => by
            rw [← he, henv] at hd
            simp at hd
          simp only [fetchMatches, if_neg hmem, hd]
          refine fetchMatches_count_inv env m d henv rest _ ?_
          simpa [List.count_append, hne] using h
        | some dd =>
          simp only [fetchMatches, if_neg hmem, hd]
          by_cases hmm : mid = m
          · subst hmm
            refine fetchMatches_count_inv env mid d henv rest _ ?_
            have h0 : st.fetchLog.count mid = 0 := by rw [h, if_neg hmem]
            simp [List.count_append, h0]
          · refine fetchMatches_count_inv env m d henv rest _ ?_
            have hne : m ≠ mid := Ne.symm hmm
            simp only [List.count_append, List.mem_append, List.mem_singleton]
            simpa [hne, Ne.symm hmm] using h

theorem processPlayers_count_inv (env : RiotEnv) (m d : String)
    (henv : env.getMatchDetails m = .ok (some d)) :
    ∀ (entries : List LeagueEntry) (st : PipState),
      st.fetchLog.count m = (if m ∈ st.processed then 1 else 0) →
      (processPlayers env st entries).state.fetchLog.count m =
        (if m ∈ (processPlayers env st entries).state.processed then 1 else 0)
  | [], _, h => h
  | e :: rest, st, h => by
    cases hr : resolvePuuid env e with
    | none =>
      simp only [processPlayers, hr]
      exact processPlayers_count_inv env m d henv rest st h
    | some p =>
      cases hi : env.getMatchIds p with
      | exc =>
        simp only [processPlayers, hr, hi]
        exact processPlayers_count_inv env m d henv rest st h
      | ok ids =>
        have hff := fetchMatches_count_inv env m d henv ids st h
        cases hf : fetchMatches env st ids with
        | aborted st2 =>
          simp only [processPlayers, hr, hi, hf]
          rw [hf] at hff
          exact hff
        | completed st2 =>
          simp only [processPlayers, hr, hi, hf]
          rw [hf] at hff
          exact processPlayers_count_inv env m d henv rest st2 hff

theorem fetchMatches_processed_mono (env : RiotEnv) :
    ∀ (l : List String) (st st' : PipState),
      fetchMatches env st l = .completed st' → st.processed ⊆ st'.processed
  | [], st, st', h => by
    cases h
    exact fun a ha => ha
  | mid :: rest, st, st', h => by
    by_cases hmem : mid ∈ st.processed
    · simp only [fetchMatches, if_pos hmem] at h
      exact fetchMatches_processed_mono env rest st st' h
    · cases hd : env.getMatchDetails mid with
      | exc =>
        simp only [fetchMatches, if_neg hmem, hd] at h
        exact RunOutcome.noConfusion h
      | ok od =>
        cases od with
        | none =>
          simp only [fetchMatches, if_neg hmem, hd] at h
          exact fetchMatches_processed_mono env rest
            { st with fetchLog := st.fetchLog ++ [mid] } st' h
        | some dd =>
          simp only [fetchMatches, if_neg hmem, hd] at h
          have hsub := fetchMatches_processed_mono env rest
            ⟨st.processed ++ [mid], st.collected ++ [dd],
              st.fetchLog ++ [mid]⟩ st' h
          intro a ha
          exact hsub (List.mem_append_left _ ha)

theorem fetchMatches_reaches (env : RiotEnv) (m d : String)
    (henv : env.getMatchDetails m = .ok (some d)) :
    ∀ (l : List String) (st st' : PipState),
      fetchMatches env st l = .completed st' → m ∈ l → m ∈ st'.processed
  | [], _, _, _, hm => absurd hm (List.not_mem_nil m)
  | mid :: rest, st, st', h, hm => by
    by_cases hmem : mid ∈ st.processed
    · simp only [fetchMatches, if_pos hmem] at h
      rcases List.mem_cons.1 hm with he | he
      · subst he
        exact fetchMatches_processed_mono env rest st st' h hmem
      · exact fetchMatches_reaches env m d henv rest st st' h he
    · rcases List.mem_cons.1 hm with he | he
      · subst he
        simp only [fetchMatches, if_neg hmem, henv] at h
        have hsub := fetchMatches_processed_mono env rest
          ⟨st.processed ++ [m], st.collected ++ [d], st.fetchLog ++ [m]⟩ st' h
        exact hsub (List.mem_append_right _ (List.mem_singleton.2 rfl))
      · cases hd : env.getMatchDetails mid with
        | exc =>
          simp only [fetchMatches, if_neg hmem, hd] at h
          exact RunOutcome.noConfusion h
        | ok od =>
          cases od with
          | none =>
            simp only [fetchMatches, if_neg hmem, hd] at h
            exact fetchMatches_reaches env m d henv rest _ st' h he
          | some dd =>
            simp only [fetchMatches, if_neg hmem, hd] at h
            exact fetchMatches_reaches env m d henv rest _ st' h he

theorem processPlayers_processed_mono (env : RiotEnv) :
    ∀ (entries : List LeagueEntry) (st st' : PipState),
      processPlayers env st entries = .completed st' → st.processed ⊆ st'.processed
  | [], st, st', h => by
    cases h
    exact fun a ha => ha
  | e :: rest, st, st', h => by
    cases hr : resolvePuuid env e with
    | none =>
      simp only [processPlayers, hr] at h
      exact processPlayers_processed_mono env rest st st' h
    | some p =>
      cases hi : env.getMatchIds p with
      | exc =>
        simp only [processPlayers, hr, hi] at h
        exact processPlayers_processed_mono env rest st st' h
      | ok ids =>
        cases hf : fetchMatches env st ids with
        | aborted st2 =>
          simp only [processPlayers, hr, hi, hf] at h
          exact RunOutcome.noConfusion h
        | completed st2 =>
          simp only [processPlayers, hr, hi, hf] at h
          exact fun a ha =>
            processPlayers_processed_mono env rest st2 st' h
              (fetchMatches_processed_mono env ids st st2 hf ha)

theorem processPlayers_reaches (env : RiotEnv) (m d : String)
    (henv : env.getMatchDetails m = .ok (some d)) :
    ∀ (entries : List LeagueEntry) (st st' : PipState) (e : LeagueEntry)
      (p : String) (ids : List String),
      processPlayers env st entries = .completed st' → e ∈ entries →
      resolvePuuid env e = some p → env.getMatchIds p = .ok ids → m ∈ ids →
      m ∈ st'.processed
  | [], _, _, _, _, _, _, he, _, _, _ => absurd he (List.not_mem_nil _)
  | a :: rest, st, st', e, p, ids, h, he, hr, hi, hm => by
    rcases List.mem_cons.1 he with hea | hea
    · subst hea
      cases hf : fetchMatches env st ids with
      | aborted st2 =>
        simp only [processPlayers, hr, hi, hf] at h
        exact RunOutcome.noConfusion h
      | completed st2 =>
        simp only [processPlayers, hr, hi, hf] at h
        exact processPlayers_processed_mono env rest st2 st' h
          (fetchMatches_reaches env m d henv ids st st2 hf hm)
    · cases hra : resolvePuuid env a with
      | none =>
        simp only [processPlayers, hra] at h
        exact processPlayers_reaches env m d henv rest st st' e p ids h hea hr hi hm
      | some pa =>
        cases hia : env.getMatchIds pa with
        | exc =>
          simp only [processPlayers, hra, hia] at h
          exact processPlayers_reaches env m d henv rest st st' e p ids h hea hr hi hm
        | ok idsa =>
          cases hfa : fetchMatches env st idsa with
          | aborted st2 =>
            simp only [processPlayers, hra, hia, hfa] at h
            exact RunOutcome.noConfusion h
          | completed st2 =>
            simp only [processPlayers, hra, hia, hfa] at h
            exact processPlayers_reaches env m d henv rest st2 st' e p ids h hea hr hi hm


/-- Claim C6: when a match id appears in the match-id lists of two (or more)
sampled players and its detail fetch succeeds, a completed run fetches its
details exactly once (one entry in the fetch log) and marks the id
processed. -/
theorem c6_match_fetched_once (env : RiotEnv) (entries : List LeagueEntry)
    (num_players : Nat) (st' : PipState) (m d : String) (e1 e2 : LeagueEntry)
    (p1 p2 : String) (l1 l2 : List String)
    (henv : env.getMatchDetails m = .ok (some d))
    (he1 : e1 ∈ entries.take num_players) (hr1 : resolvePuuid env e1 = some p1)
    (hi1 : env.getMatchIds p1 = .ok l1) (hm1 : m ∈ l1)
    (he2 : e2 ∈ entries.take num_players) (hr2 : resolvePuuid env e2 = some p2)
    (hi2 : env.getMatchIds p2 = .ok l2) (hm2 : m ∈ l2)
    (hrun : extract_match_data env entries num_players = .completed st') :
    st'.fetchLog.count m = 1 ∧ m ∈ st'.processed := by
  have hne : entries.isEmpty = false := by
    cases entries with
    | nil => simp at he1
    | cons a l => rfl
  simp only [extract_match_data, hne, Bool.false_eq_true, if_false] at hrun
  have hmem : m ∈ st'.processed :=
    processPlayers_reaches env m d henv (entries.take num_players)
      ⟨[], [], []⟩ st' e1 p1 l1 hrun he1 hr1 hi1 hm1
  have hcount := processPlayers_count_inv env m d henv
    (entries.take num_players) ⟨[], [], []⟩ (by simp)
  rw [hrun] at hcount
  simp only [RunOutcome.state] at hcount
  rw [hcount, if_pos hmem]
  exact ⟨rfl, hmem⟩

/-- Witness for C6: players P1 (matches m1, m2) and P2 (matches m2, m3)
share m2; the completed run logs exactly one fetch of m2. -/
theorem c6_match_fetched_once_witness :
    (⟨["m1", "m2", "m3"], ["D", "D", "D"], ["m1", "m2", "m3"]⟩ :
      PipState).fetchLog.count "m2" = 1 ∧
    "m2" ∈ (⟨["m1", "m2", "m3"], ["D", "D", "D"], ["m1", "m2", "m3"]⟩ :
      PipState).processed :=
  c6_match_fetched_once
    ⟨fun _ => .ok none,
     fun p => if p = "P1" then .ok ["m1", "m2"] else .ok ["m2", "m3"],
     fun _ => .ok (some "D")⟩
    [⟨some "P1", none⟩, ⟨some "P2", none⟩] 2
    ⟨["m1", "m2", "m3"], ["D", "D", "D"], ["m1", "m2", "m3"]⟩
    "m2" "D" ⟨some "P1", none⟩ ⟨some "P2", none⟩ "P1" "P2"
    ["m1", "m2"] ["m2", "m3"]
    rfl (by decide) rfl rfl (by decide)
    (by decide) rfl rfl (by decide) (by decide)

/-- Counterexample to C7 as stated: a run in which the first player's
match-detail fetch raises.  `get_match_details` is not wrapped in try/except,
so the run aborts: the outcome is not a completed run, nothing is returned,
and the second player is never processed. -/
theorem c7_counterexample :
    extract_match_data
      ⟨fun _ => .ok none, fun _ => .ok ["m1"], fun _ => .exc⟩
      [⟨some "P1", none⟩, ⟨some "P2", none⟩] 2 = .aborted ⟨[], [], ["m1"]⟩ ∧
    RunOutcome.isCompleted (.aborted ⟨[], [], ["m1"]⟩) = false ∧
    (RunOutcome.aborted ⟨[], [], ["m1"]⟩).state.collected = [] :=
  ⟨rfl, rfl, rfl⟩

/-- Claim C7 (amended): a failure in summoner resolution or in match-id
listing skips that player and the run continues with the remaining players
unchanged; a match-detail fetch that returns no data merely skips that match;
but a match-detail fetch that raises aborts the whole run — the remaining
players are not processed and the collected matches are not returned. -/
theorem c7_amended_partial_failure (env : RiotEnv) (st : PipState)
    (e : LeagueEntry) (rest : List LeagueEntry) (p : String)
    (ids : List String) (st' : PipState) (mid : String)
    (midrest : List String) :
    (resolvePuuid env e = none →
      processPlayers env st (e :: rest) = processPlayers env st rest) ∧
    (resolvePuuid env e = some p → env.getMatchIds p = .exc →
      processPlayers env st (e :: rest) = processPlayers env st rest) ∧
    (mid ∉ st.processed → env.getMatchDetails mid = .ok none →
      fetchMatches env st (mid :: midrest) =
        fetchMatches env { st with fetchLog := st.fetchLog ++ [mid] } midrest) ∧
    (mid ∉ st.processed → env.getMatchDetails mid = .exc →
      fetchMatches env st (mid :: midrest) =
        .aborted { st with fetchLog := st.fetchLog ++ [mid] }) ∧
    (resolvePuuid env e = some p → env.getMatchIds p = .ok ids →
      fetchMatches env st ids = .aborted st' →
      processPlayers env st (e :: rest) = .aborted st') := by
  refine ⟨?_, ?_, ?_, ?_, ?_⟩
  · intro hr
    simp [processPlayers, hr]
  · intro hr hi
    simp [processPlayers, hr, hi]
  · intro hmem hd
    simp [fetchMatches, hmem, hd]
  · intro hmem hd
    simp [fetchMatches, hmem, hd]
  · intro hr hi hf
    simp [processPlayers, hr, hi, hf]

/-- Witness for the amended C7 at concrete environments: an unresolvable
entry is skipped; a raising match-id listing is skipped; a `None` detail
result only logs the fetch; a raising detail fetch aborts. -/
theorem c7_amended_partial_failure_witness :
    (processPlayers
        ⟨fun _ => .exc, fun _ => .ok ["m1"], fun _ => .exc⟩
        ⟨[], [], []⟩ [⟨none, none⟩] =
      processPlayers
        ⟨fun _ => .exc, fun _ => .ok ["m1"], fun _ => .exc⟩ ⟨[], [], []⟩ []) ∧
    (processPlayers
        ⟨fun _ => .ok none, fun _ => .exc, fun _ => .ok (some "D")⟩
        ⟨[], [], []⟩ [⟨some "P", none⟩] =
      processPlayers
        ⟨fun _ => .ok none, fun _ => .exc, fun _ => .ok (some "D")⟩
        ⟨[], [], []⟩ []) ∧
    (fetchMatches
        ⟨fun _ => .ok none, fun _ => .ok ["m1"], fun _ => .ok none⟩
        ⟨[], [], []⟩ ["m1"] =
      fetchMatches
        ⟨fun _ => .ok none, fun _ => .ok ["m1"], fun _ => .ok none⟩
        ⟨[], [], ["m1"]⟩ []) ∧
    (fetchMatches
        ⟨fun _ => .ok none, fun _ => .ok ["m1"], fun _ => .exc⟩
        ⟨[], [], []⟩ ["m1"] = .aborted ⟨[], [], ["m1"]⟩) ∧
    (processPlayers
        ⟨fun _ => .ok none, fun _ => .ok ["m1"], fun _ => .exc⟩
        ⟨[], [], []⟩ [⟨some "P1", none⟩, ⟨some "P2", none⟩] =
      .aborted ⟨[], [], ["m1"]⟩) := by
  refine ⟨?_, ?_, ?_, ?_, ?_⟩
  · exact (c7_amended_partial_failure
      ⟨fun _ => .exc, fun _ => .ok ["m1"], fun _ => .exc⟩ ⟨[], [], []⟩
      ⟨none, none⟩ [] "p" [] ⟨[], [], []⟩ "m" []).1 rfl
  · exact (c7_amended_partial_failure
      ⟨fun _ => .ok none, fun _ => .exc, fun _ => .ok (some "D")⟩ ⟨[], [], []⟩
      ⟨some "P", none⟩ [] "P" [] ⟨[], [], []⟩ "m" []).2.1 rfl rfl
  · exact (c7_amended_partial_failure
      ⟨fun _ => .ok none, fun _ => .ok ["m1"], fun _ => .ok none⟩ ⟨[], [], []⟩
      ⟨some "P", none⟩ [] "P" [] ⟨[], [], []⟩ "m1" []).2.2.1
      (by decide) rfl
  · exact (c7_amended_partial_failure
      ⟨fun _ => .ok none, fun _ => .ok ["m1"], fun _ => .exc⟩ ⟨[], [], []⟩
      ⟨some "P", none⟩ [] "P" [] ⟨[], [], []⟩ "m1" []).2.2.2.1
      (by decide) rfl
  · exact (c7_amended_partial_failure
      ⟨fun _ => .ok none, fun _ => .ok ["m1"], fun _ => .exc⟩ ⟨[], [], []⟩
      ⟨some "P1", none⟩ [⟨some "P2", none⟩] "P1" ["m1"] ⟨[], [], ["m1"]⟩
      "m" []).2.2.2.2 rfl rfl rfl

end TFT
